import Mathlib

/-!
Shallow embedding of the ewel-server booking core (Express/Mongoose app):
slot admission control (`countBookingsForDate`, `createBooking`,
`updateBooking`, `cancelBooking` from the booking controller), the capacity
store (`HealthcareCenter.getSlotsForTest` plus schema defaults), the
price-snapshot hook (`bookingSchema.pre('save')` in `Booking.js`) and the
assignment review workflow (`reviewAssignmentRequest` in
`testController.js`).

Identifiers (Mongo ObjectIds) are modelled as `Nat`; timestamps (JS `Date`)
as epoch milliseconds (`Nat`); the document store as lists of records.
`findById` is `List.find?` on the id; a Mongoose single-document update
(`save` / `findByIdAndUpdate`) updates the first document with the id
(ids are unique in the store, so "first" is "the" document).
-/

/-- Booking `status` enum from `Booking.js`:
`['pending', 'confirmed', 'completed', 'canceled']`, default `pending`. -/
inductive BookingStatus where
  | pending
  | confirmed
  | completed
  | canceled
deriving DecidableEq, Repr

/-- Pricing / assignment-request `status` enum:
`['pending', 'approved', 'rejected']`. -/
inductive PricingStatus where
  | pending
  | approved
  | rejected
deriving DecidableEq, Repr

/-- A booking document (`Booking.js`). `scheduledAt` is epoch ms. -/
structure Booking where
  id : Nat
  user : Nat
  test : Nat
  hcs : Nat
  status : BookingStatus
  scheduledAt : Nat
  priceAtBooking : Nat
deriving DecidableEq, Repr

/-- One entry of `test.hcsPricing`: `{hcs, price, status}`. -/
structure PricingEntry where
  hcs : Nat
  price : Nat
  status : PricingStatus
deriving DecidableEq, Repr

/-- A test document: base `price` and per-center `hcsPricing` list
(fields as read by the booking and test controllers). -/
structure Test where
  id : Nat
  price : Nat
  hcsPricing : List PricingEntry
deriving DecidableEq, Repr

/-- One entry of `healthcareCenter.testSlots`: `{test, slotsPerDay}`. -/
structure TestSlot where
  test : Nat
  slotsPerDay : Nat
deriving DecidableEq, Repr

/-- A healthcare-center document (`HealthcareCenter.js`): the default
`availableSlotsPerDay` and the per-test `testSlots` overrides. -/
structure HealthcareCenter where
  id : Nat
  availableSlotsPerDay : Nat
  testSlots : List TestSlot
deriving DecidableEq, Repr

/-- Creating a center document: the schema gives `availableSlotsPerDay`
`default: 10` when the field is not explicitly set. -/
def mkHealthcareCenter (id : Nat) (slots : Option Nat) (testSlots : List TestSlot) :
    HealthcareCenter :=
  { id := id, availableSlotsPerDay := slots.getD 10, testSlots := testSlots }

/-- `healthcareCenterSchema.methods.getSlotsForTest`: the per-test override
when one exists, otherwise the center's `availableSlotsPerDay`. -/
def HealthcareCenter.getSlotsForTest (c : HealthcareCenter) (testId : Nat) : Nat :=
  match c.testSlots.find? (fun slot => slot.test == testId) with
  | some testSlot => testSlot.slotsPerDay
  | none => c.availableSlotsPerDay

/-- A user document, restricted to the field the booking controller
writes (`phone`). -/
structure User where
  id : Nat
  phone : Option Nat
deriving DecidableEq, Repr

/-- An assignment-request document (`TestAssignmentRequest.js`). -/
structure AssignmentRequest where
  id : Nat
  test : Nat
  hcs : Nat
  requestedPrice : Nat
  status : PricingStatus
  requestedBy : Nat
  reviewedBy : Option Nat
  notes : Option String
deriving DecidableEq, Repr

/-- The document store. -/
structure Db where
  bookings : List Booking
  tests : List Test
  centers : List HealthcareCenter
  users : List User
  requests : List AssignmentRequest
  nextBookingId : Nat
deriving Repr

def msPerDay : Nat := 86400000

/-- `new Date(date); d.setHours(0,0,0,0)`: start of `date`'s calendar day. -/
def startOfDay (t : Nat) : Nat := t / msPerDay * msPerDay

/-- `new Date(date); d.setHours(23,59,59,999)`: last millisecond of
`date`'s calendar day. -/
def endOfDay (t : Nat) : Nat := startOfDay t + (msPerDay - 1)

/-- The filter of `countBookingsForDate`: same center, `scheduledAt`
between `startOfDay date` and `endOfDay date` inclusive, and
`status: { $ne: 'canceled' }`. There is no per-test condition. -/
def bookingOccupies (hcsId date : Nat) (b : Booking) : Bool :=
  b.hcs == hcsId
    && decide (startOfDay date ≤ b.scheduledAt)
    && decide (b.scheduledAt ≤ endOfDay date)
    && b.status != BookingStatus.canceled

/-- `countBookingsForDate(hcsId, date)` from the booking controller:
`Booking.countDocuments` under `bookingOccupies`. -/
def countBookingsForDate (bookings : List Booking) (hcsId date : Nat) : Nat :=
  bookings.countP (bookingOccupies hcsId date)

def findTest (db : Db) (id : Nat) : Option Test :=
  db.tests.find? (fun t => t.id == id)

def findCenter (db : Db) (id : Nat) : Option HealthcareCenter :=
  db.centers.find? (fun c => c.id == id)

def findBooking (db : Db) (id : Nat) : Option Booking :=
  db.bookings.find? (fun b => b.id == id)

def findRequest (db : Db) (id : Nat) : Option AssignmentRequest :=
  db.requests.find? (fun r => r.id == id)

/-- A Mongoose single-document write: update the first document matching
`p` (documents are keyed by unique ids, so the first match is the match). -/
def updateFirst {α : Type} (p : α → Bool) (f : α → α) : List α → List α
  | [] => []
  | x :: xs => if p x then f x :: xs else x :: updateFirst p f xs

/-- The error responses the booking/test controllers send.
`noSlots limit` is the capacity rejection; the only datum interpolated
into its message is `availableSlots` (the limit). -/
inductive ApiError where
  | testNotFound
  | hcsNotFound
  | notAvailableAtHcs
  | notInFuture
  | noSlots (limit : Nat)
  | bookingNotFound
  | requestNotFound
deriving DecidableEq, Repr

/-- The message string each error is sent with (`res.json({message})`). -/
def ApiError.message : ApiError → String
  | .testNotFound => "Test not found"
  | .hcsNotFound => "Healthcare center not found"
  | .notAvailableAtHcs => "Test is not available at the selected healthcare center"
  | .notInFuture => "Scheduled time must be in the future"
  | .noSlots limit =>
      "No available slots for the selected date. Maximum " ++ toString limit
        ++ " bookings allowed per day for this test."
  | .bookingNotFound => "Booking not found"
  | .requestNotFound => "Assignment request not found"

/-- The price computation of `bookingSchema.pre('save')` for a new
booking: the approved `hcsPricing` entry's price for the booking's center
when one exists, else the test's base price, else 0 when the test is
missing from the store. -/
def computePriceAtBooking (db : Db) (testId hcsId : Nat) : Nat :=
  match findTest db testId with
  | some test =>
      match test.hcsPricing.find?
          (fun pricing => pricing.hcs == hcsId && pricing.status == PricingStatus.approved) with
      | some hcsPricing => hcsPricing.price
      | none => test.price
  | none => 0

/-- `bookingSchema.pre('save')`: only on a new document (`this.isNew`)
is `priceAtBooking` (re)computed; saving an existing document leaves it
untouched. -/
def preSaveHook (db : Db) (isNew : Bool) (b : Booking) : Booking :=
  if isNew then { b with priceAtBooking := computePriceAtBooking db b.test b.hcs } else b

/-- `User.findByIdAndUpdate(req.user.id, { phone })` when a phone is
supplied with the booking request. -/
def updatePhone (db : Db) (userId : Nat) (phone : Option Nat) : Db :=
  match phone with
  | some p =>
      { db with users := updateFirst (fun u => u.id == userId) (fun u => { u with phone := some p }) db.users }
  | none => db

/-- `Booking.create(...)`: a new document with default status `pending`,
run through the pre-save hook (which snapshots the price), appended to
the store. -/
def insertBooking (db : Db) (userId testId hcsId scheduledAt : Nat) : Db × Booking :=
  let booking := preSaveHook db true
    { id := db.nextBookingId, user := userId, test := testId, hcs := hcsId,
      status := BookingStatus.pending, scheduledAt := scheduledAt,
      priceAtBooking := 0 }
  let newBookings := db.bookings ++ [booking]
  ({ db with bookings := newBookings, nextBookingId := db.nextBookingId + 1 }, booking)

/-- `createBooking` (booking controller), after authentication and the
required-field check; `now` is the clock read by `new Date()`:
1. `Test.findById` — 404 when missing;
2. `HealthcareCenter.findById` — 404 when missing;
3. an `hcsPricing` entry for this center with `status === 'approved'`
   must exist — otherwise 400 "not available";
4. the scheduled time must be strictly in the future;
5. `countBookingsForDate` vs `getSlotsForTest` — reject when
   `bookingCount >= availableSlots`;
6. optionally update the user's phone, then `Booking.create`. -/
def createBooking (db : Db) (now userId testId hcsId scheduledAt : Nat)
    (phone : Option Nat) : Except ApiError (Db × Booking) :=
  match findTest db testId with
  | none => .error .testNotFound
  | some testDoc =>
    match findCenter db hcsId with
    | none => .error .hcsNotFound
    | some hcsDoc =>
      match testDoc.hcsPricing.find?
          (fun pricing => pricing.hcs == hcsId && pricing.status == PricingStatus.approved) with
      | none => .error .notAvailableAtHcs
      | some _ =>
        if scheduledAt ≤ now then .error .notInFuture
        else
          if countBookingsForDate db.bookings hcsId scheduledAt ≥ hcsDoc.getSlotsForTest testId then
            .error (.noSlots (hcsDoc.getSlotsForTest testId))
          else
            .ok (insertBooking (updatePhone db userId phone) userId testId hcsId scheduledAt)

/-- `Booking.findByIdAndUpdate(id, {status})`: update the document in the
store (no pre-save hook runs) and return the updated document. -/
def applyStatusUpdate (db : Db) (bookingId : Nat) (newStatus : BookingStatus)
    (booking : Booking) : Db × Booking :=
  let newBookings :=
    updateFirst (fun b => b.id == bookingId) (fun b => { b with status := newStatus }) db.bookings
  ({ db with bookings := newBookings }, { booking with status := newStatus })

/-- `updateBooking` (booking controller), after authorization, restricted
to the `status` field of `req.body` (the field the capacity logic keys
on). When the status changes to `confirmed` from a non-`confirmed`
status, re-check `countBookingsForDate` for the booking's own
`scheduledAt` against `getSlotsForTest(booking.test)` and reject with the
capacity error when `bookingCount >= availableSlots`; then
`findByIdAndUpdate` (which runs no pre-save hook). -/
def updateBooking (db : Db) (bookingId : Nat) (newStatus : BookingStatus) :
    Except ApiError (Db × Booking) :=
  match findBooking db bookingId with
  | none => .error .bookingNotFound
  | some booking =>
    if newStatus == BookingStatus.confirmed && booking.status != BookingStatus.confirmed then
      match findCenter db booking.hcs with
      | none => .error .hcsNotFound
      | some hcsDoc =>
        if countBookingsForDate db.bookings booking.hcs booking.scheduledAt
             ≥ hcsDoc.getSlotsForTest booking.test then
          .error (.noSlots (hcsDoc.getSlotsForTest booking.test))
        else
          .ok (applyStatusUpdate db bookingId newStatus booking)
    else
      .ok (applyStatusUpdate db bookingId newStatus booking)

/-- `booking.status = 'canceled'; booking.save()`: the pre-save hook runs
with `isNew = false`, so it touches nothing but the status. -/
def applyCancel (db : Db) (bookingId : Nat) (booking : Booking) : Db × Booking :=
  let canceled := preSaveHook db false { booking with status := BookingStatus.canceled }
  let newBookings :=
    updateFirst (fun b => b.id == bookingId)
      (fun b => preSaveHook db false { b with status := BookingStatus.canceled }) db.bookings
  ({ db with bookings := newBookings }, canceled)

/-- `cancelBooking` (booking controller), after authorization:
set `status = 'canceled'` and `save()`, with no restriction on the
current status. -/
def cancelBooking (db : Db) (bookingId : Nat) : Except ApiError (Db × Booking) :=
  match findBooking db bookingId with
  | none => .error .bookingNotFound
  | some booking => .ok (applyCancel db bookingId booking)

/-- The upsert inside `reviewAssignmentRequest`'s approval branch:
`test.hcsPricing.find(item => item.hcs === request.hcs)` — mutate that
entry's `price` and `status` in place when found, else `push` a new
`{hcs, price, status: 'approved'}` entry. -/
def upsertPricing (entries : List PricingEntry) (hcsId price : Nat) : List PricingEntry :=
  match entries with
  | [] => [{ hcs := hcsId, price := price, status := PricingStatus.approved }]
  | e :: rest =>
      if e.hcs == hcsId then { e with price := price, status := PricingStatus.approved } :: rest
      else e :: upsertPricing rest hcsId price

/-- `request.status = status; request.reviewedBy = reviewerId;
if (notes) request.notes = notes` — unconditional, with no guard on the
request's current status. -/
def reviewUpdate (reviewerId : Nat) (status : PricingStatus) (notes : Option String)
    (r : AssignmentRequest) : AssignmentRequest :=
  { r with status := status, reviewedBy := some reviewerId,
           notes := (match notes with | some v => some v | none => r.notes) }

/-- `await request.save()` after the unconditional field updates. -/
def saveReviewedRequest (db : Db) (requestId reviewerId : Nat)
    (status : PricingStatus) (notes : Option String) : Db :=
  let newRequests :=
    updateFirst (fun r => r.id == requestId) (reviewUpdate reviewerId status notes) db.requests
  { db with requests := newRequests }

/-- The approval branch of `reviewAssignmentRequest`: look the test up
and upsert its pricing entry for the request's center (no-op when the
test no longer exists). -/
def approvePricing (db : Db) (testId hcsId price : Nat) : Db :=
  match findTest db testId with
  | some _ =>
      let newTests :=
        updateFirst (fun t => t.id == testId)
          (fun t => { t with hcsPricing := upsertPricing t.hcsPricing hcsId price })
          db.tests
      { db with tests := newTests }
  | none => db

/-- `reviewAssignmentRequest` (`testController.js`): find the request
(404 when missing), save it with the supplied `status`, `reviewedBy` and
optional `notes` — there is no guard on the request's current status —
and, when the decision is `approved`, upsert the test's pricing entry
with the request's `requestedPrice`. -/
def reviewAssignmentRequest (db : Db) (requestId reviewerId : Nat)
    (status : PricingStatus) (notes : Option String) : Except ApiError Db :=
  match findRequest db requestId with
  | none => .error .requestNotFound
  | some request =>
    if status == PricingStatus.approved then
      .ok (approvePricing (saveReviewedRequest db requestId reviewerId status notes)
            request.test request.hcs request.requestedPrice)
    else
      .ok (saveReviewedRequest db requestId reviewerId status notes)

/-! ### Concrete stores used in the scenario theorems and witnesses -/

/-- A timestamp at 01:00 on (epoch) day 10. -/
def exDay : Nat := 10 * msPerDay + 3600000

def exBooking (i testId : Nat) (st : BookingStatus) : Booking :=
  { id := i, user := 7, test := testId, hcs := 0, status := st,
    scheduledAt := exDay, priceAtBooking := 150 }

def exUser : User := { id := 7, phone := none }

def isOkB : Except ApiError (Db × Booking) → Bool
  | .ok _ => true
  | .error _ => false

/-- The booking returned by a successful operation (dummy on error). -/
def bookingOf : Except ApiError (Db × Booking) → Booking
  | .ok (_, b) => b
  | .error _ => { id := 0, user := 0, test := 0, hcs := 0, status := .pending,
                  scheduledAt := 0, priceAtBooking := 0 }

/-- Scenario B data: center 0 with default capacity 5 and an override of
1 slot for test 1; tests 1 and 2 both carry an approved pricing entry. -/
def c5X : HealthcareCenter :=
  { id := 0, availableSlotsPerDay := 5, testSlots := [{ test := 1, slotsPerDay := 1 }] }

def c5T : Test :=
  { id := 1, price := 100, hcsPricing := [{ hcs := 0, price := 150, status := .approved }] }

def c5T2 : Test :=
  { id := 2, price := 100, hcsPricing := [{ hcs := 0, price := 150, status := .approved }] }

def c5db0 : Db :=
  { bookings := [], tests := [c5T, c5T2], centers := [c5X], users := [exUser],
    requests := [], nextBookingId := 0 }

/-- One customer booking step for a given test on `exDay` (keeps the
store unchanged when the booking is rejected). -/
def c5step (db : Db) (testId : Nat) : Db :=
  match createBooking db 0 7 testId 0 exDay none with
  | .ok (db', _) => db'
  | .error _ => db

def c5db1 : Db := c5step c5db0 1
def c5db2 : Db := c5step c5db1 2
def c5db3 : Db := c5step c5db2 2
def c5db4 : Db := c5step c5db3 2
def c5db5 : Db := c5step c5db4 2

/-- Scenario A data: center 0 with default capacity 2 and no overrides;
two occupying bookings on `exDay` (store A) resp. three (store B). -/
def c6X : HealthcareCenter := { id := 0, availableSlotsPerDay := 2, testSlots := [] }

def c6T : Test :=
  { id := 1, price := 100, hcsPricing := [{ hcs := 0, price := 150, status := .approved }] }

def c6dbA : Db :=
  { bookings := [exBooking 0 1 .pending, exBooking 1 1 .confirmed], tests := [c6T],
    centers := [c6X], users := [exUser], requests := [], nextBookingId := 2 }

def c6dbB : Db :=
  { bookings := [exBooking 0 1 .pending, exBooking 1 1 .confirmed, exBooking 2 1 .pending],
    tests := [c6T], centers := [c6X], users := [exUser], requests := [], nextBookingId := 3 }

/-- Slot-counter example store: one pending and one canceled booking. -/
def c3db : Db :=
  { bookings := [exBooking 0 1 .pending, exBooking 1 2 .canceled], tests := [],
    centers := [], users := [], requests := [], nextBookingId := 2 }

def c3pair : Db × Booking := applyCancel c3db 0 (exBooking 0 1 .pending)

/-- A test with no approved pricing entry at center 0. -/
def c7T : Test :=
  { id := 3, price := 100, hcsPricing := [{ hcs := 0, price := 120, status := .pending }] }

def c7db : Db :=
  { bookings := [], tests := [c7T], centers := [c6X], users := [exUser],
    requests := [], nextBookingId := 0 }

/-- Assignment-review example stores. -/
def c9T : Test :=
  { id := 1, price := 100, hcsPricing := [{ hcs := 0, price := 500, status := .approved }] }

def c9req : AssignmentRequest :=
  { id := 1, test := 1, hcs := 0, requestedPrice := 500, status := .approved,
    requestedBy := 2, reviewedBy := some 3, notes := none }

def c9db : Db :=
  { bookings := [], tests := [c9T], centers := [], users := [], requests := [c9req],
    nextBookingId := 0 }

def reviewOrSame (db : Db) (requestId reviewerId : Nat) (status : PricingStatus) : Db :=
  match reviewAssignmentRequest db requestId reviewerId status none with
  | .ok d => d
  | .error _ => db

def c9dbAfter : Db := reviewOrSame c9db 1 4 PricingStatus.rejected

def c8req : AssignmentRequest :=
  { id := 1, test := 1, hcs := 0, requestedPrice := 700, status := .pending,
    requestedBy := 2, reviewedBy := none, notes := none }

def c8db : Db :=
  { bookings := [], tests := [c9T], centers := [], users := [], requests := [c8req],
    nextBookingId := 0 }

def c8dbAfter : Db := reviewOrSame c8db 1 4 PricingStatus.approved

/-- A store whose single pending booking fills the center's capacity of 1. -/
def c10X : HealthcareCenter := { id := 0, availableSlotsPerDay := 1, testSlots := [] }

def c10b : Booking := exBooking 0 1 .pending

def c10db : Db :=
  { bookings := [c10b], tests := [c6T], centers := [c10X], users := [exUser],
    requests := [], nextBookingId := 1 }

/-- A store with one pending booking under a capacity of 2, so the
confirm-transition succeeds. -/
def c1db : Db :=
  { bookings := [c10b], tests := [c6T], centers := [c6X], users := [exUser],
    requests := [], nextBookingId := 1 }

def c1pair : Db × Booking := applyStatusUpdate c1db 0 BookingStatus.confirmed c10b

/-! ### Helper lemmas -/

theorem startOfDay_le (t : Nat) : startOfDay t ≤ t :=
  Nat.div_mul_le_self t msPerDay

theorem le_endOfDay (t : Nat) : t ≤ endOfDay t := by
  have h1 : t % msPerDay + t / msPerDay * msPerDay = t := Nat.mod_add_div' t msPerDay
  have h2 : t % msPerDay < msPerDay := Nat.mod_lt _ (by decide)
  unfold endOfDay startOfDay
  omega

theorem updatePhone_bookings (db : Db) (u : Nat) (ph : Option Nat) :
    (updatePhone db u ph).bookings = db.bookings := by
  cases ph <;> rfl

theorem updatePhone_tests (db : Db) (u : Nat) (ph : Option Nat) :
    (updatePhone db u ph).tests = db.tests := by
  cases ph <;> rfl

theorem updatePhone_centers (db : Db) (u : Nat) (ph : Option Nat) :
    (updatePhone db u ph).centers = db.centers := by
  cases ph <;> rfl

theorem updatePhone_nextBookingId (db : Db) (u : Nat) (ph : Option Nat) :
    (updatePhone db u ph).nextBookingId = db.nextBookingId := by
  cases ph <;> rfl

/-- Updating the first `p`-document trades its `q`-count contribution for
that of its image. -/
theorem countP_updateFirst {α : Type} (p q : α → Bool) (f : α → α) (l : List α) (x : α)
    (hfind : l.find? p = some x) :
    (updateFirst p f l).countP q + (if q x then 1 else 0)
      = l.countP q + (if q (f x) then 1 else 0) := by
  induction l with
  | nil => simp [List.find?] at hfind
  | cons a l ih =>
    by_cases hpa : p a = true
    · rw [List.find?_cons_of_pos _ hpa] at hfind
      injection hfind with h
      subst h
      simp [updateFirst, hpa, List.countP_cons]
      cases h1 : q a <;> cases h2 : q (f a) <;> simp [h1, h2]
    · rw [List.find?_cons_of_neg _ hpa] at hfind
      simp [updateFirst, hpa, List.countP_cons]
      have := ih hfind
      omega

/-- If no document matches `p`, `updateFirst` is the identity. -/
theorem updateFirst_of_find?_none {α : Type} (p : α → Bool) (f : α → α) (l : List α)
    (hfind : l.find? p = none) : updateFirst p f l = l := by
  induction l with
  | nil => rfl
  | cons a l ih =>
    by_cases hpa : p a = true
    · rw [List.find?_cons_of_pos _ hpa] at hfind; exact absurd hfind (by simp)
    · rw [List.find?_cons_of_neg _ hpa] at hfind
      simp [updateFirst, hpa]
      exact ih hfind

/-- Re-fetching after a keyed single-document update returns the updated
document, provided the update preserves the key. -/
theorem find?_updateFirst {α : Type} (p : α → Bool) (f : α → α) (l : List α)
    (hpf : ∀ y, p (f y) = p y) :
    (updateFirst p f l).find? p = (l.find? p).map f := by
  induction l with
  | nil => rfl
  | cons a l ih =>
    by_cases hpa : p a = true
    · simp only [updateFirst, hpa, if_true]
      rw [List.find?_cons_of_pos _ (by rw [hpf]; exact hpa), List.find?_cons_of_pos _ hpa]
      rfl
    · have hstep : updateFirst p f (a :: l) = a :: updateFirst p f l := by
        simp [updateFirst, hpa]
      rw [hstep, List.find?_cons_of_neg _ hpa, List.find?_cons_of_neg _ hpa]
      exact ih

/-- Inversion of a successful `createBooking`: every validation passed
and the result is the freshly inserted booking. -/
theorem createBooking_ok {db : Db} {now userId testId hcsId scheduledAt : Nat}
    {phone : Option Nat} {db' : Db} {b : Booking}
    (h : createBooking db now userId testId hcsId scheduledAt phone = .ok (db', b)) :
    ∃ testDoc hcsDoc,
      findTest db testId = some testDoc ∧
      findCenter db hcsId = some hcsDoc ∧
      (∃ e, testDoc.hcsPricing.find?
          (fun pricing => pricing.hcs == hcsId && pricing.status == PricingStatus.approved)
          = some e) ∧
      now < scheduledAt ∧
      countBookingsForDate db.bookings hcsId scheduledAt < hcsDoc.getSlotsForTest testId ∧
      (db', b) = insertBooking (updatePhone db userId phone) userId testId hcsId scheduledAt := by
  unfold createBooking at h
  split at h
  · exact absurd h (by simp)
  next testDoc htest =>
    split at h
    · exact absurd h (by simp)
    next hcsDoc hhcs =>
      split at h
      · exact absurd h (by simp)
      next e hfindp =>
        split at h
        · exact absurd h (by simp)
        next hfuture =>
          split at h
          · exact absurd h (by simp)
          next hcap =>
            refine ⟨testDoc, hcsDoc, htest, hhcs, ⟨e, hfindp⟩, by omega, by omega, ?_⟩
            injection h with h'
            exact h'.symm

/-- Inversion of a successful confirm-transition `updateBooking` on a
booking that was not already confirmed: the capacity re-check passed. -/
theorem updateBooking_confirm_ok {db : Db} {bookingId : Nat} {db' : Db} {b' booking : Booking}
    (hfind : findBooking db bookingId = some booking)
    (hprev : booking.status ≠ BookingStatus.confirmed)
    (h : updateBooking db bookingId BookingStatus.confirmed = .ok (db', b')) :
    ∃ hcsDoc, findCenter db booking.hcs = some hcsDoc ∧
      countBookingsForDate db.bookings booking.hcs booking.scheduledAt
        < hcsDoc.getSlotsForTest booking.test ∧
      (db', b') = applyStatusUpdate db bookingId BookingStatus.confirmed booking := by
  simp only [updateBooking, hfind] at h
  split at h
  · split at h
    · exact absurd h (by simp)
    next hcsDoc hhcs =>
      split at h
      · exact absurd h (by simp)
      next hcap =>
        refine ⟨hcsDoc, hhcs, by omega, ?_⟩
        injection h with h'
        exact h'.symm
  next hcond =>
    exfalso
    apply hprev
    simpa using hcond

/-- Inversion of a successful `cancelBooking`. -/
theorem cancelBooking_ok {db : Db} {bookingId : Nat} {db' : Db} {c booking : Booking}
    (hfind : findBooking db bookingId = some booking)
    (h : cancelBooking db bookingId = .ok (db', c)) :
    (db', c) = applyCancel db bookingId booking := by
  simp only [cancelBooking, hfind] at h
  injection h with h'
  exact h'.symm

/-- Inversion of a successful `reviewAssignmentRequest`. -/
theorem reviewAssignmentRequest_ok {db : Db} {requestId reviewerId : Nat}
    {status : PricingStatus} {notes : Option String} {db' : Db} {r : AssignmentRequest}
    (hfind : findRequest db requestId = some r)
    (h : reviewAssignmentRequest db requestId reviewerId status notes = .ok db') :
    db' = (if status == PricingStatus.approved then
            approvePricing (saveReviewedRequest db requestId reviewerId status notes)
              r.test r.hcs r.requestedPrice
          else saveReviewedRequest db requestId reviewerId status notes) := by
  simp only [reviewAssignmentRequest, hfind] at h
  split at h <;> rename_i hcond <;>
    first
      | rw [if_pos hcond]
      | rw [if_neg hcond]
  all_goals (injection h with h'; exact h'.symm)

theorem preSaveHook_not_new (db : Db) (b : Booking) : preSaveHook db false b = b := rfl

theorem findTest_updatePhone (db : Db) (u : Nat) (ph : Option Nat) (i : Nat) :
    findTest (updatePhone db u ph) i = findTest db i := by
  unfold findTest
  rw [updatePhone_tests]

theorem saveReviewedRequest_tests (db : Db) (rid rvw : Nat) (st : PricingStatus)
    (notes : Option String) : (saveReviewedRequest db rid rvw st notes).tests = db.tests := rfl

theorem saveReviewedRequest_bookings (db : Db) (rid rvw : Nat) (st : PricingStatus)
    (notes : Option String) : (saveReviewedRequest db rid rvw st notes).bookings = db.bookings := rfl

theorem approvePricing_bookings (db : Db) (t h p : Nat) :
    (approvePricing db t h p).bookings = db.bookings := by
  unfold approvePricing
  split <;> rfl

theorem approvePricing_requests (db : Db) (t h p : Nat) :
    (approvePricing db t h p).requests = db.requests := by
  unfold approvePricing
  split <;> rfl

/-- Characterization of the count filter as a proposition. -/
theorem bookingOccupies_iff (hcsId date : Nat) (b : Booking) :
    bookingOccupies hcsId date b = true ↔
      (b.hcs = hcsId ∧ startOfDay date ≤ b.scheduledAt ∧ b.scheduledAt ≤ endOfDay date ∧
       b.status ≠ BookingStatus.canceled) := by
  simp [bookingOccupies, and_assoc]

/-- The upsert yields exactly one entry for the target center, approved
at the requested price, whenever the list was duplicate-free for that
center to begin with. -/
theorem upsertPricing_spec (l : List PricingEntry) (h pr : Nat)
    (hcount : l.countP (fun e => e.hcs == h) ≤ 1) :
    (upsertPricing l h pr).countP (fun e => e.hcs == h) = 1 ∧
      ∀ e ∈ upsertPricing l h pr, e.hcs = h →
        e.status = PricingStatus.approved ∧ e.price = pr := by
  induction l with
  | nil =>
    refine ⟨by simp [upsertPricing], ?_⟩
    intro e he _
    simp [upsertPricing] at he
    simp [he]
  | cons a l ih =>
    by_cases ha : (a.hcs == h) = true
    · have hstep : upsertPricing (a :: l) h pr
          = { a with price := pr, status := PricingStatus.approved } :: l := by
        simp only [upsertPricing]
        rw [if_pos ha]
      have hzero : l.countP (fun e => e.hcs == h) = 0 := by
        rw [List.countP_cons] at hcount
        rw [ha] at hcount
        rw [if_pos rfl] at hcount
        omega
      have hnone : ∀ e ∈ l, ¬((e.hcs == h) = true) := List.countP_eq_zero.1 hzero
      constructor
      · rw [hstep, List.countP_cons, hzero]
        simp [ha]
      · intro e he hehcs
        rw [hstep, List.mem_cons] at he
        rcases he with he | he
        · subst he
          exact ⟨rfl, rfl⟩
        · exact absurd (by simp [hehcs]) (hnone e he)
    · have hstep : upsertPricing (a :: l) h pr = a :: upsertPricing l h pr := by
        simp only [upsertPricing]
        rw [if_neg ha]
      have hle : l.countP (fun e => e.hcs == h) ≤ 1 := by
        rw [List.countP_cons] at hcount
        omega
      obtain ⟨ih1, ih2⟩ := ih hle
      constructor
      · rw [hstep, List.countP_cons, ih1]
        simp [ha]
      · intro e he hehcs
        rw [hstep, List.mem_cons] at he
        rcases he with he | he
        · exact absurd (he ▸ hehcs) (by simpa using ha)
        · exact ih2 e he hehcs

/-- When no entry for the center exists, the upsert appends. -/
theorem upsertPricing_append (l : List PricingEntry) (h pr : Nat)
    (hnone : ∀ x ∈ l, x.hcs ≠ h) :
    upsertPricing l h pr = l ++ [{ hcs := h, price := pr, status := PricingStatus.approved }] := by
  induction l with
  | nil => rfl
  | cons a l ih =>
    have ha : ¬((a.hcs == h) = true) := by
      simpa using hnone a (List.mem_cons_self a l)
    have hstep : upsertPricing (a :: l) h pr = a :: upsertPricing l h pr := by
      simp only [upsertPricing]
      rw [if_neg ha]
    rw [hstep, ih (fun x hx => hnone x (List.mem_cons_of_mem a hx)), List.cons_append]

/-- When an entry for the center exists, the first one is updated in
place and the rest of the list is untouched. -/
theorem upsertPricing_inPlace (l1 l2 : List PricingEntry) (e : PricingEntry) (h pr : Nat)
    (hl1 : ∀ x ∈ l1, x.hcs ≠ h) (he : e.hcs = h) :
    upsertPricing (l1 ++ e :: l2) h pr
      = l1 ++ { e with price := pr, status := PricingStatus.approved } :: l2 := by
  induction l1 with
  | nil =>
    simp only [List.nil_append, upsertPricing]
    rw [if_pos (by simpa using he)]
  | cons a l1 ih =>
    have ha : ¬((a.hcs == h) = true) := by
      simpa using hl1 a (List.mem_cons_self a l1)
    have hstep : upsertPricing ((a :: l1) ++ e :: l2) h pr
        = a :: upsertPricing (l1 ++ e :: l2) h pr := by
      simp only [List.cons_append, upsertPricing]
      rw [if_neg ha]
      rfl
    rw [hstep, ih (fun x hx => hl1 x (List.mem_cons_of_mem a hx)), List.cons_append]

/-- Inversion of any successful `updateBooking`. -/
theorem updateBooking_ok {db : Db} {bookingId : Nat} {newStatus : BookingStatus}
    {db' : Db} {b' booking : Booking}
    (hfind : findBooking db bookingId = some booking)
    (h : updateBooking db bookingId newStatus = .ok (db', b')) :
    (db', b') = applyStatusUpdate db bookingId newStatus booking := by
  simp only [updateBooking, hfind] at h
  split at h
  · split at h
    · exact absurd h (by simp)
    · split at h
      · exact absurd h (by simp)
      · injection h with h'
        exact h'.symm
  · injection h with h'
    exact h'.symm

/-- Reviewing an assignment request never touches the booking store. -/
theorem reviewAssignmentRequest_bookings {db : Db} {requestId reviewerId : Nat}
    {status : PricingStatus} {notes : Option String} {db' : Db}
    (h : reviewAssignmentRequest db requestId reviewerId status notes = .ok db') :
    db'.bookings = db.bookings := by
  unfold reviewAssignmentRequest at h
  split at h
  · exact absurd h (by simp)
  · split at h <;> (injection h with h'; subst h')
    · rw [approvePricing_bookings, saveReviewedRequest_bookings]
    · rw [saveReviewedRequest_bookings]

/-! ### Claim theorems -/

/-- C3: `countBookingsForDate(C, D)` counts exactly the bookings at center
`C` — of any test, there is no per-test filter — whose scheduled
timestamp lies in the closed calendar-day interval
`[startOfDay D, endOfDay D]` and whose status is not `canceled`; a
canceled booking is never counted, and canceling a booking removes
exactly its own contribution from every day count, freeing its slot for
subsequent admissions. -/
theorem countOccupied_spec :
    (∀ (bs : List Booking) (hcsId date : Nat),
        countBookingsForDate bs hcsId date =
          (bs.filter (fun b => decide (b.hcs = hcsId ∧ startOfDay date ≤ b.scheduledAt ∧
              b.scheduledAt ≤ endOfDay date ∧ b.status ≠ BookingStatus.canceled))).length)
  ∧ (∀ (hcsId date : Nat) (b : Booking),
        b.status = BookingStatus.canceled → bookingOccupies hcsId date b = false)
  ∧ (∀ (db : Db) (bookingId : Nat) (db' : Db) (c booking : Booking),
        findBooking db bookingId = some booking →
        cancelBooking db bookingId = .ok (db', c) →
        ∀ hcsId date,
          countBookingsForDate db'.bookings hcsId date
              + (if bookingOccupies hcsId date booking then 1 else 0)
            = countBookingsForDate db.bookings hcsId date) := by
  refine ⟨?_, ?_, ?_⟩
  · intro bs hcsId date
    unfold countBookingsForDate
    rw [List.countP_eq_length_filter]
    congr 1
    apply List.filter_congr
    intro b _
    rcases hb : bookingOccupies hcsId date b
    · symm
      rw [decide_eq_false_iff_not]
      rw [← bookingOccupies_iff hcsId date b]
      simp [hb]
    · symm
      rw [decide_eq_true_eq]
      exact (bookingOccupies_iff hcsId date b).1 hb
  · intro hcsId date b hstat
    simp [bookingOccupies, hstat]
  · intro db bookingId db' c booking hfind hok hcsId date
    have hinv := cancelBooking_ok hfind hok
    have hfind' : db.bookings.find? (fun b => b.id == bookingId) = some booking := hfind
    have hb : db'.bookings = updateFirst (fun b => b.id == bookingId)
        (fun b => preSaveHook db false { b with status := BookingStatus.canceled })
        db.bookings := by
      have hdb' : db' = (applyCancel db bookingId booking).1 := congrArg Prod.fst hinv
      rw [hdb']
      rfl
    have hcnt := countP_updateFirst (fun b => b.id == bookingId)
      (bookingOccupies hcsId date)
      (fun b => preSaveHook db false { b with status := BookingStatus.canceled })
      db.bookings booking hfind'
    have hqf : bookingOccupies hcsId date
        (preSaveHook db false { booking with status := BookingStatus.canceled }) = false := by
      rw [preSaveHook_not_new]
      simp [bookingOccupies]
    rw [hqf] at hcnt
    unfold countBookingsForDate
    rw [hb]
    simpa using hcnt

/-- C3 witness: concrete instances of all three conjuncts. -/
theorem countOccupied_spec_witness :
    countBookingsForDate [exBooking 0 1 BookingStatus.pending] 0 exDay =
        ([exBooking 0 1 BookingStatus.pending].filter
          (fun b => decide (b.hcs = 0 ∧ startOfDay exDay ≤ b.scheduledAt ∧
            b.scheduledAt ≤ endOfDay exDay ∧ b.status ≠ BookingStatus.canceled))).length
  ∧ bookingOccupies 0 exDay (exBooking 1 2 BookingStatus.canceled) = false
  ∧ countBookingsForDate c3pair.1.bookings 0 exDay
        + (if bookingOccupies 0 exDay (exBooking 0 1 BookingStatus.pending) then 1 else 0)
      = countBookingsForDate c3db.bookings 0 exDay :=
  ⟨countOccupied_spec.1 [exBooking 0 1 BookingStatus.pending] 0 exDay,
   countOccupied_spec.2.1 0 exDay (exBooking 1 2 BookingStatus.canceled) rfl,
   countOccupied_spec.2.2 c3db 0 c3pair.1 c3pair.2 (exBooking 0 1 BookingStatus.pending)
     rfl rfl 0 exDay⟩

/-- C4: `getSlotsForTest` returns the per-test override when one exists
and the center's default daily slot count otherwise; the default is 10
when never explicitly set. -/
theorem capacityFor_spec :
    (∀ (c : HealthcareCenter) (testId : Nat) (s : TestSlot),
        c.testSlots.find? (fun slot => slot.test == testId) = some s →
        c.getSlotsForTest testId = s.slotsPerDay)
  ∧ (∀ (c : HealthcareCenter) (testId : Nat),
        c.testSlots.find? (fun slot => slot.test == testId) = none →
        c.getSlotsForTest testId = c.availableSlotsPerDay)
  ∧ (∀ (id : Nat) (ts : List TestSlot),
        (mkHealthcareCenter id none ts).availableSlotsPerDay = 10) := by
  refine ⟨?_, ?_, ?_⟩
  · intro c testId s hfind
    unfold HealthcareCenter.getSlotsForTest
    rw [hfind]
  · intro c testId hfind
    unfold HealthcareCenter.getSlotsForTest
    rw [hfind]
  · intro id ts
    rfl

/-- C4 witness: override of 1 slot for test 1 at `c5X`, default of 5 for
a test with no override, and the schema default of 10. -/
theorem capacityFor_spec_witness :
    c5X.getSlotsForTest 1 = 1 ∧ c5X.getSlotsForTest 2 = 5 ∧
      (mkHealthcareCenter 9 none []).availableSlotsPerDay = 10 :=
  ⟨capacityFor_spec.1 c5X 1 { test := 1, slotsPerDay := 1 } rfl,
   capacityFor_spec.2.1 c5X 2 rfl,
   capacityFor_spec.2.2 9 []⟩

/-- C1: in a sequential execution, immediately after a successful
`createBooking` or a successful pending-to-confirmed `updateBooking` for
a booking of test T at center C on day D, the number of non-canceled
bookings at C on D is at most `getSlotsForTest` for (C, T). -/
theorem admission_invariant :
    (∀ (db : Db) (now userId testId hcsId scheduledAt : Nat) (phone : Option Nat)
        (db' : Db) (b : Booking) (hcsDoc : HealthcareCenter),
        createBooking db now userId testId hcsId scheduledAt phone = .ok (db', b) →
        findCenter db hcsId = some hcsDoc →
        countBookingsForDate db'.bookings hcsId scheduledAt ≤ hcsDoc.getSlotsForTest testId)
  ∧ (∀ (db : Db) (bookingId : Nat) (db' : Db) (b' booking : Booking)
        (hcsDoc : HealthcareCenter),
        findBooking db bookingId = some booking →
        booking.status = BookingStatus.pending →
        updateBooking db bookingId BookingStatus.confirmed = .ok (db', b') →
        findCenter db booking.hcs = some hcsDoc →
        countBookingsForDate db'.bookings booking.hcs booking.scheduledAt
          ≤ hcsDoc.getSlotsForTest booking.test) := by
  constructor
  · intro db now userId testId hcsId scheduledAt phone db' b hcsDoc hok hhcs
    obtain ⟨t, c, htest, hc, _hpr, _hfut, hcap, hres⟩ := createBooking_ok hok
    obtain rfl : c = hcsDoc := by
      have h := hc.symm.trans hhcs
      injection h
    have hdb' : db' =
        (insertBooking (updatePhone db userId phone) userId testId hcsId scheduledAt).1 :=
      congrArg Prod.fst hres
    have hbs : db'.bookings = db.bookings ++
        [(insertBooking (updatePhone db userId phone) userId testId hcsId scheduledAt).2] := by
      rw [hdb']
      rw [← updatePhone_bookings db userId phone]
      rfl
    have hsingle :
        ([(insertBooking (updatePhone db userId phone) userId testId hcsId scheduledAt).2].countP
          (bookingOccupies hcsId scheduledAt)) ≤ 1 :=
      le_trans (List.countP_le_length _) (by simp)
    unfold countBookingsForDate at *
    rw [hbs, List.countP_append]
    omega
  · intro db bookingId db' b' booking hcsDoc hfind hstat hok hhcs
    have hprev : booking.status ≠ BookingStatus.confirmed := by
      rw [hstat]
      intro h
      exact BookingStatus.noConfusion h
    obtain ⟨c, hc, hcap, hres⟩ := updateBooking_confirm_ok hfind hprev hok
    obtain rfl : c = hcsDoc := by
      have h := hc.symm.trans hhcs
      injection h
    have hfind' : db.bookings.find? (fun b => b.id == bookingId) = some booking := hfind
    have hdb' : db' = (applyStatusUpdate db bookingId BookingStatus.confirmed booking).1 :=
      congrArg Prod.fst hres
    have hbs : db'.bookings = updateFirst (fun b => b.id == bookingId)
        (fun b => { b with status := BookingStatus.confirmed }) db.bookings := by
      rw [hdb']
      rfl
    have hcnt := countP_updateFirst (fun b => b.id == bookingId)
      (bookingOccupies booking.hcs booking.scheduledAt)
      (fun b => { b with status := BookingStatus.confirmed }) db.bookings booking hfind'
    have hqeq : bookingOccupies booking.hcs booking.scheduledAt
          { booking with status := BookingStatus.confirmed }
        = bookingOccupies booking.hcs booking.scheduledAt booking := by
      simp [bookingOccupies, hstat]
      rfl
    rw [hqeq] at hcnt
    unfold countBookingsForDate at *
    rw [hbs]
    omega

/-- C1 witness: a successful creation under scenario-B data and a
successful confirm-transition under a capacity of 2. -/
theorem admission_invariant_witness :
    countBookingsForDate c5db1.bookings 0 exDay ≤ c5X.getSlotsForTest 1
  ∧ countBookingsForDate c1pair.1.bookings c10b.hcs c10b.scheduledAt
      ≤ c6X.getSlotsForTest c10b.test :=
  ⟨admission_invariant.1 c5db0 0 7 1 0 exDay none c5db1
      (bookingOf (createBooking c5db0 0 7 1 0 exDay none)) c5X rfl rfl,
   admission_invariant.2 c1db 0 c1pair.1 c1pair.2 c10b c6X rfl rfl rfl rfl⟩

/-- C2: `priceAtBooking` is computed exactly once, at creation — the
approved pricing-entry price for (test, center) when one exists, else
the test's base price — and later saves (cancellation, status updates)
as well as later changes to the test store (base price or pricing
entries, e.g. through a review) leave the stored value unchanged. -/
theorem price_snapshot :
    (∀ (db : Db) (now userId testId hcsId scheduledAt : Nat) (phone : Option Nat)
        (db' : Db) (b : Booking) (t : Test),
        createBooking db now userId testId hcsId scheduledAt phone = .ok (db', b) →
        findTest db testId = some t →
        b.priceAtBooking =
          (match t.hcsPricing.find?
              (fun e => e.hcs == hcsId && e.status == PricingStatus.approved) with
           | some e => e.price
           | none => t.price))
  ∧ (∀ (db : Db) (bookingId : Nat) (db' : Db) (c booking : Booking),
        findBooking db bookingId = some booking →
        cancelBooking db bookingId = .ok (db', c) →
        c.priceAtBooking = booking.priceAtBooking ∧
          findBooking db' bookingId = some c)
  ∧ (∀ (db : Db) (bookingId : Nat) (newStatus : BookingStatus) (db' : Db)
        (b' booking : Booking),
        findBooking db bookingId = some booking →
        updateBooking db bookingId newStatus = .ok (db', b') →
        b'.priceAtBooking = booking.priceAtBooking ∧
          findBooking db' bookingId = some b')
  ∧ (∀ (db : Db) (newTests : List Test) (bookingId : Nat),
        findBooking { db with tests := newTests } bookingId = findBooking db bookingId)
  ∧ (∀ (db : Db) (requestId reviewerId : Nat) (status : PricingStatus)
        (notes : Option String) (db' : Db),
        reviewAssignmentRequest db requestId reviewerId status notes = .ok db' →
        db'.bookings = db.bookings) := by
  refine ⟨?_, ?_, ?_, ?_, ?_⟩
  · intro db now userId testId hcsId scheduledAt phone db' b t hok htest
    obtain ⟨t', c, htest', hc, _, _, _, hres⟩ := createBooking_ok hok
    obtain rfl : t' = t := by
      have h := htest'.symm.trans htest
      injection h
    have hb : b = (insertBooking (updatePhone db userId phone) userId testId hcsId scheduledAt).2 :=
      congrArg Prod.snd hres
    rw [hb]
    show computePriceAtBooking (updatePhone db userId phone) testId hcsId = _
    unfold computePriceAtBooking
    rw [findTest_updatePhone, htest]
  · intro db bookingId db' c booking hfind hok
    have hinv := cancelBooking_ok hfind hok
    have hc : c = preSaveHook db false { booking with status := BookingStatus.canceled } :=
      congrArg Prod.snd hinv
    constructor
    · rw [hc, preSaveHook_not_new]
    · have hpf : ∀ y : Booking,
          ((preSaveHook db false { y with status := BookingStatus.canceled }).id == bookingId)
            = (y.id == bookingId) := by
        intro y
        rw [preSaveHook_not_new]
      have hmap := find?_updateFirst (fun b => b.id == bookingId)
        (fun b => preSaveHook db false { b with status := BookingStatus.canceled })
        db.bookings hpf
      have hfind' : db.bookings.find? (fun b => b.id == bookingId) = some booking := hfind
      have hdb' : db' = (applyCancel db bookingId booking).1 := congrArg Prod.fst hinv
      show db'.bookings.find? (fun b => b.id == bookingId) = some c
      rw [hdb']
      show (updateFirst (fun b => b.id == bookingId)
          (fun b => preSaveHook db false { b with status := BookingStatus.canceled })
          db.bookings).find? (fun b => b.id == bookingId) = some c
      rw [hmap, hfind', hc]
      rfl
  · intro db bookingId newStatus db' b' booking hfind hok
    have hinv := updateBooking_ok hfind hok
    have hb' : b' = { booking with status := newStatus } := congrArg Prod.snd hinv
    constructor
    · rw [hb']
    · have hpf : ∀ y : Booking,
          (({ y with status := newStatus } : Booking).id == bookingId) = (y.id == bookingId) := by
        intro y
        rfl
      have hmap := find?_updateFirst (fun b => b.id == bookingId)
        (fun b => { b with status := newStatus }) db.bookings hpf
      have hfind' : db.bookings.find? (fun b => b.id == bookingId) = some booking := hfind
      have hdb' : db' = (applyStatusUpdate db bookingId newStatus booking).1 :=
        congrArg Prod.fst hinv
      show db'.bookings.find? (fun b => b.id == bookingId) = some b'
      rw [hdb']
      show (updateFirst (fun b => b.id == bookingId)
          (fun b => { b with status := newStatus }) db.bookings).find?
          (fun b => b.id == bookingId) = some b'
      rw [hmap, hfind', hb']
      rfl
  · intro db newTests bookingId
    rfl
  · intro db requestId reviewerId status notes db' h
    exact reviewAssignmentRequest_bookings h

/-- C2 witness: the created booking under scenario-B data snapshots the
approved entry price 150; canceling it and a status update leave the
snapshot unchanged; swapping the test store does not affect re-fetching. -/
theorem price_snapshot_witness :
    (bookingOf (createBooking c5db0 0 7 1 0 exDay none)).priceAtBooking =
        (match c5T.hcsPricing.find?
            (fun e => e.hcs == 0 && e.status == PricingStatus.approved) with
         | some e => e.price
         | none => c5T.price)
  ∧ ((applyCancel c1db 0 c10b).2.priceAtBooking = c10b.priceAtBooking ∧
       findBooking (applyCancel c1db 0 c10b).1 0 = some (applyCancel c1db 0 c10b).2)
  ∧ (c1pair.2.priceAtBooking = c10b.priceAtBooking ∧
       findBooking c1pair.1 0 = some c1pair.2)
  ∧ findBooking { c1db with tests := [] } 0 = findBooking c1db 0
  ∧ c8dbAfter.bookings = c8db.bookings :=
  ⟨price_snapshot.1 c5db0 0 7 1 0 exDay none c5db1
      (bookingOf (createBooking c5db0 0 7 1 0 exDay none)) c5T rfl rfl,
   price_snapshot.2.1 c1db 0 (applyCancel c1db 0 c10b).1 (applyCancel c1db 0 c10b).2 c10b
      rfl rfl,
   price_snapshot.2.2.1 c1db 0 BookingStatus.confirmed c1pair.1 c1pair.2 c10b rfl rfl,
   price_snapshot.2.2.2.1 c1db [] 0,
   price_snapshot.2.2.2.2 c8db 1 4 PricingStatus.approved none c8dbAfter rfl⟩

/-- C7: when the test carries no approved pricing entry for the chosen
center, `createBooking` fails with the "not available" validation error
— the check precedes the date and capacity checks, so this holds
regardless of remaining capacity, and no booking is persisted (the
operation returns an error, not a new store). -/
theorem notOffered_rejects :
    ∀ (db : Db) (now userId testId hcsId scheduledAt : Nat) (phone : Option Nat)
      (t : Test) (c : HealthcareCenter),
      findTest db testId = some t →
      findCenter db hcsId = some c →
      (∀ e ∈ t.hcsPricing, ¬(e.hcs = hcsId ∧ e.status = PricingStatus.approved)) →
      createBooking db now userId testId hcsId scheduledAt phone
        = .error ApiError.notAvailableAtHcs := by
  intro db now userId testId hcsId scheduledAt phone t c htest hhcs hnone
  have hfindp : t.hcsPricing.find?
      (fun pricing => pricing.hcs == hcsId && pricing.status == PricingStatus.approved)
      = none := by
    rw [List.find?_eq_none]
    intro e he
    simp only [Bool.and_eq_true, beq_iff_eq]
    exact hnone e he
  simp only [createBooking, htest, hhcs, hfindp]

/-- C7 witness: test 3 has only a pending entry at center 0, so booking
it there is rejected as not available even though the day is empty. -/
theorem notOffered_rejects_witness :
    createBooking c7db 5 7 3 0 exDay none = .error ApiError.notAvailableAtHcs :=
  notOffered_rejects c7db 5 7 3 0 exDay none c7T c6X rfl rfl (by decide)

/-- C10: the admission re-check at the pending-to-confirmed transition
includes the booking being confirmed in its own occupancy count — a
pending booking occupies its scheduled day, so the day's count is at
least 1 — and whenever that count is at or above the capacity for
(center, test), confirming the pending booking is rejected with the
capacity error, even though confirming would not increase occupancy. -/
theorem confirm_recheck_counts_self :
    ∀ (db : Db) (bookingId : Nat) (booking : Booking) (hcsDoc : HealthcareCenter),
      findBooking db bookingId = some booking →
      booking.status = BookingStatus.pending →
      findCenter db booking.hcs = some hcsDoc →
      bookingOccupies booking.hcs booking.scheduledAt booking = true
      ∧ 1 ≤ countBookingsForDate db.bookings booking.hcs booking.scheduledAt
      ∧ (hcsDoc.getSlotsForTest booking.test
            ≤ countBookingsForDate db.bookings booking.hcs booking.scheduledAt →
          updateBooking db bookingId BookingStatus.confirmed
            = .error (.noSlots (hcsDoc.getSlotsForTest booking.test))) := by
  intro db bookingId booking hcsDoc hfind hstat hhcs
  have hocc : bookingOccupies booking.hcs booking.scheduledAt booking = true := by
    rw [bookingOccupies_iff]
    refine ⟨rfl, startOfDay_le _, le_endOfDay _, ?_⟩
    rw [hstat]
    intro h
    exact BookingStatus.noConfusion h
  refine ⟨hocc, ?_, ?_⟩
  · have hmem : booking ∈ db.bookings := List.mem_of_find?_eq_some hfind
    have hpos : 0 < db.bookings.countP (bookingOccupies booking.hcs booking.scheduledAt) :=
      List.countP_pos_iff.2 ⟨booking, hmem, hocc⟩
    unfold countBookingsForDate
    omega
  · intro hcap
    have hcond : (BookingStatus.confirmed == BookingStatus.confirmed
        && booking.status != BookingStatus.confirmed) = true := by
      rw [hstat]
      rfl
    simp only [updateBooking, hfind]
    rw [hcond, if_pos rfl]
    split
    · next hnone =>
        rw [hhcs] at hnone
        exact absurd hnone (by simp)
    · next hcsDoc' hsome =>
        rw [hhcs] at hsome
        obtain rfl : hcsDoc' = hcsDoc := by
          injection hsome with h
          exact h.symm
        rw [if_pos hcap]

/-- C10 witness: a single pending booking under a capacity of 1 — the
day is exactly at capacity — cannot be confirmed. -/
theorem confirm_recheck_counts_self_witness :
    bookingOccupies c10b.hcs c10b.scheduledAt c10b = true
  ∧ 1 ≤ countBookingsForDate c10db.bookings c10b.hcs c10b.scheduledAt
  ∧ updateBooking c10db 0 BookingStatus.confirmed
      = .error (.noSlots (c10X.getSlotsForTest c10b.test)) := by
  obtain ⟨h1, h2, h3⟩ := confirm_recheck_counts_self c10db 0 c10b c10X rfl rfl rfl
  exact ⟨h1, h2, h3 (by decide)⟩

/-- C8: after a `reviewAssignmentRequest` call approving a request for
(test T, center C, price P) — when T's pricing list held at most one
entry for C, as the upsert discipline maintains — T's pricing list holds
exactly one entry for C, approved at price P; structurally the upsert
updates the first existing entry in place and appends otherwise, never
duplicating. -/
theorem review_approval_upserts :
    (∀ (db : Db) (requestId reviewerId : Nat) (notes : Option String) (db' : Db)
        (r : AssignmentRequest) (t : Test),
        findRequest db requestId = some r →
        findTest db r.test = some t →
        t.hcsPricing.countP (fun e => e.hcs == r.hcs) ≤ 1 →
        reviewAssignmentRequest db requestId reviewerId PricingStatus.approved notes
          = .ok db' →
        findTest db' r.test
            = some { t with hcsPricing := upsertPricing t.hcsPricing r.hcs r.requestedPrice }
          ∧ (upsertPricing t.hcsPricing r.hcs r.requestedPrice).countP
              (fun e => e.hcs == r.hcs) = 1
          ∧ ∀ e ∈ upsertPricing t.hcsPricing r.hcs r.requestedPrice,
              e.hcs = r.hcs → e.status = PricingStatus.approved ∧ e.price = r.requestedPrice)
  ∧ (∀ (l : List PricingEntry) (h pr : Nat),
        (∀ x ∈ l, x.hcs ≠ h) →
        upsertPricing l h pr
          = l ++ [{ hcs := h, price := pr, status := PricingStatus.approved }])
  ∧ (∀ (l1 l2 : List PricingEntry) (e : PricingEntry) (h pr : Nat),
        (∀ x ∈ l1, x.hcs ≠ h) → e.hcs = h →
        upsertPricing (l1 ++ e :: l2) h pr
          = l1 ++ { e with price := pr, status := PricingStatus.approved } :: l2) := by
  refine ⟨?_, upsertPricing_append, upsertPricing_inPlace⟩
  intro db requestId reviewerId notes db' r t hfind htest hcount hok
  have hdb' := reviewAssignmentRequest_ok hfind hok
  rw [if_pos (show (PricingStatus.approved == PricingStatus.approved) = true from rfl)] at hdb'
  have htest1 : findTest (saveReviewedRequest db requestId reviewerId
      PricingStatus.approved notes) r.test = some t := htest
  have happ : db'.tests = updateFirst (fun x => x.id == r.test)
      (fun x => { x with hcsPricing := upsertPricing x.hcsPricing r.hcs r.requestedPrice })
      db.tests := by
    rw [hdb']
    unfold approvePricing
    rw [htest1]
    rfl
  have hpf : ∀ y : Test,
      (({ y with hcsPricing := upsertPricing y.hcsPricing r.hcs r.requestedPrice } : Test).id
        == r.test) = (y.id == r.test) := fun y => rfl
  have hmap := find?_updateFirst (fun x => x.id == r.test)
    (fun x => { x with hcsPricing := upsertPricing x.hcsPricing r.hcs r.requestedPrice })
    db.tests hpf
  have htest' : db.tests.find? (fun x => x.id == r.test) = some t := htest
  obtain ⟨hcnt1, hall⟩ := upsertPricing_spec t.hcsPricing r.hcs r.requestedPrice hcount
  refine ⟨?_, hcnt1, hall⟩
  show db'.tests.find? (fun x => x.id == r.test) = _
  rw [happ, hmap, htest']
  rfl

/-- C8 witness: approving the pending request at price 700 turns the
existing 500-entry into a single approved 700-entry; the structural
conjuncts at concrete lists. -/
theorem review_approval_upserts_witness :
    findTest c8dbAfter 1 = some { c9T with hcsPricing := upsertPricing c9T.hcsPricing 0 700 }
  ∧ (upsertPricing c9T.hcsPricing 0 700).countP (fun e => e.hcs == 0) = 1
  ∧ upsertPricing [] 0 700
      = [] ++ [{ hcs := 0, price := 700, status := PricingStatus.approved }]
  ∧ upsertPricing [{ hcs := 0, price := 500, status := PricingStatus.approved }] 0 700
      = [{ hcs := 0, price := 700, status := PricingStatus.approved }] := by
  obtain ⟨h1, h2, _⟩ := review_approval_upserts.1 c8db 1 4 none c8dbAfter c8req c9T
    rfl rfl (by decide) rfl
  refine ⟨h1, h2, review_approval_upserts.2.1 [] 0 700 (by decide), ?_⟩
  exact review_approval_upserts.2.2 [] []
    { hcs := 0, price := 500, status := PricingStatus.approved } 0 700 (by decide) rfl

/-- C9 counterexample: a request that is already `approved` is reviewed
again with decision `rejected`, and its stored status changes — the
"transitions exactly once" claim fails on the code, which has no guard
on the current status. -/
theorem review_exactly_once_counterexample :
    (findRequest c9db 1).map AssignmentRequest.status = some PricingStatus.approved
  ∧ reviewAssignmentRequest c9db 1 4 PricingStatus.rejected none = .ok c9dbAfter
  ∧ (findRequest c9dbAfter 1).map AssignmentRequest.status = some PricingStatus.rejected :=
  ⟨rfl, rfl, rfl⟩

/-- C9 (amended): every successful `reviewAssignmentRequest` overwrites
the request's status with the supplied decision and records the
reviewer, unconditionally — regardless of whether the request was still
pending or already approved/rejected — so a later call changes a
terminal status again (and an approval re-applies the pricing upsert). -/
theorem review_overwrites_status :
    ∀ (db : Db) (requestId reviewerId : Nat) (status : PricingStatus)
      (notes : Option String) (db' : Db) (r : AssignmentRequest),
      findRequest db requestId = some r →
      reviewAssignmentRequest db requestId reviewerId status notes = .ok db' →
      findRequest db' requestId = some (reviewUpdate reviewerId status notes r)
        ∧ (reviewUpdate reviewerId status notes r).status = status
        ∧ (reviewUpdate reviewerId status notes r).reviewedBy = some reviewerId := by
  intro db requestId reviewerId status notes db' r hfind hok
  have hdb' := reviewAssignmentRequest_ok hfind hok
  have hreq : db'.requests
      = (saveReviewedRequest db requestId reviewerId status notes).requests := by
    rw [hdb']
    split
    · rw [approvePricing_requests]
    · rfl
  have hreq2 : db'.requests = updateFirst (fun x => x.id == requestId)
      (reviewUpdate reviewerId status notes) db.requests := hreq
  have hpf : ∀ y : AssignmentRequest,
      ((reviewUpdate reviewerId status notes y).id == requestId) = (y.id == requestId) :=
    fun y => rfl
  have hmap := find?_updateFirst (fun x => x.id == requestId)
    (reviewUpdate reviewerId status notes) db.requests hpf
  have hfind' : db.requests.find? (fun x => x.id == requestId) = some r := hfind
  refine ⟨?_, rfl, rfl⟩
  show db'.requests.find? (fun x => x.id == requestId) = _
  rw [hreq2, hmap, hfind']
  rfl

/-- C9 witness: re-reviewing the already-approved request with decision
`rejected` stores status `rejected` and reviewer 4. -/
theorem review_overwrites_status_witness :
    findRequest c9dbAfter 1
        = some { c9req with status := PricingStatus.rejected, reviewedBy := some 4 }
      ∧ (reviewUpdate 4 PricingStatus.rejected none c9req).status = PricingStatus.rejected
      ∧ (reviewUpdate 4 PricingStatus.rejected none c9req).reviewedBy = some 4 :=
  review_overwrites_status c9db 1 4 PricingStatus.rejected none c9dbAfter c9req rfl rfl

/-- C5 counterexample: with the one booking for test 1 present, only
four bookings for the different test 2 have been admitted, and the next
test-2 booking is already rejected with the capacity error — not
admitted "up to the default capacity of 5" as the claim states. -/
theorem scenarioB_counterexample :
    c5db5.bookings.countP (fun b => b.test == 2 && b.status != BookingStatus.canceled) = 4
  ∧ createBooking c5db5 0 7 2 0 exDay none = .error (.noSlots 5) :=
  ⟨rfl, rfl⟩

/-- C5 (amended): one booking for test 1 (override 1) succeeds, a
subsequent booking for the different test 2 succeeds, and further
test-2 bookings are admitted only until the center-wide day total
reaches the default capacity of 5 — i.e. four of them, since the
occupancy count has no per-test filter — after which the next test-2
booking is rejected with the capacity error carrying limit 5. -/
theorem scenarioB_amended :
    isOkB (createBooking c5db0 0 7 1 0 exDay none) = true
  ∧ isOkB (createBooking c5db1 0 7 2 0 exDay none) = true
  ∧ isOkB (createBooking c5db2 0 7 2 0 exDay none) = true
  ∧ isOkB (createBooking c5db3 0 7 2 0 exDay none) = true
  ∧ isOkB (createBooking c5db4 0 7 2 0 exDay none) = true
  ∧ countBookingsForDate c5db5.bookings 0 exDay = 5
  ∧ createBooking c5db5 0 7 2 0 exDay none = .error (.noSlots 5) :=
  ⟨rfl, rfl, rfl, rfl, rfl, rfl, rfl⟩

/-- C6 counterexample: two stores that differ in occupancy (2 vs 3
occupied under limit 2) produce identical capacity errors, so the error
reported to the caller cannot carry the occupied count — it is not
`CapacityExceeded{limit, occupied}`. -/
theorem capacity_error_context_counterexample :
    createBooking c6dbA 0 7 1 0 exDay none = .error (.noSlots 2)
  ∧ createBooking c6dbB 0 7 1 0 exDay none = .error (.noSlots 2)
  ∧ countBookingsForDate c6dbA.bookings 0 exDay = 2
  ∧ countBookingsForDate c6dbB.bookings 0 exDay = 3 :=
  ⟨rfl, rfl, rfl, rfl⟩

/-- C6 (amended): a capacity rejection reports only the limit — the
error is `noSlots availableSlots`, whose message interpolates the limit
alone; in Scenario A (capacity 2, two bookings) the third booking is
rejected with the capacity error carrying limit 2 and the message
"Maximum 2 bookings allowed per day". -/
theorem capacity_error_carries_limit :
    (∀ (db : Db) (now userId testId hcsId scheduledAt : Nat) (phone : Option Nat)
        (t : Test) (c : HealthcareCenter) (e : PricingEntry),
        findTest db testId = some t →
        findCenter db hcsId = some c →
        t.hcsPricing.find?
            (fun p => p.hcs == hcsId && p.status == PricingStatus.approved) = some e →
        now < scheduledAt →
        c.getSlotsForTest testId ≤ countBookingsForDate db.bookings hcsId scheduledAt →
        createBooking db now userId testId hcsId scheduledAt phone
          = .error (.noSlots (c.getSlotsForTest testId)))
  ∧ (ApiError.noSlots 2).message
      = "No available slots for the selected date. Maximum 2 bookings allowed per day for this test." := by
  constructor
  · intro db now userId testId hcsId scheduledAt phone t c e htest hhcs hp hfut hcap
    simp only [createBooking, htest, hhcs, hp]
    rw [if_neg (by omega)]
    rw [if_pos hcap]
  · rfl

/-- C6 witness: Scenario A — the third booking under capacity 2 is
rejected with the limit-only error. -/
theorem capacity_error_carries_limit_witness :
    createBooking c6dbA 0 7 1 0 exDay none = .error (.noSlots (c6X.getSlotsForTest 1))
  ∧ (ApiError.noSlots 2).message
      = "No available slots for the selected date. Maximum 2 bookings allowed per day for this test." :=
  ⟨capacity_error_carries_limit.1 c6dbA 0 7 1 0 exDay none c6T c6X
      { hcs := 0, price := 150, status := PricingStatus.approved } rfl rfl rfl
      (by decide) (by decide),
   capacity_error_carries_limit.2⟩
